import Mathlib

/-!
Shallow embedding of `tgw.go` (package `tgw`, a minimal table data gateway).

A Go struct is modelled as a list of fields; each field carries the Go field
name, its `db` tag, its `tgw` tag (a comma-separated role list), the reflect
kind of the field, and (for unsigned-integer fields) its current value as a
`Nat` (uint64).  `parseMeta`, the quoting helpers and the five gateway
operations are translated directly from the source.  The database is modelled
as the list of SQL statements issued so far; a reflect panic is modelled by
the `panicked` outcome.
-/

namespace TGW

/-- The reflect kinds relevant to `reflect.Value.Uint` / `SetUint`. -/
inductive GoKind where
  | uintK | uint8K | uint16K | uint32K | uint64K | uintptrK
  | intK | int8K | int16K | int32K | int64K
  | float32K | float64K | stringK | boolK | otherK
deriving DecidableEq

/-- `reflect.Value.Uint` (and `SetUint`) succeed exactly on these kinds;
on any other kind they panic. -/
def isUintKind : GoKind → Bool
  | .uintK | .uint8K | .uint16K | .uint32K | .uint64K | .uintptrK => true
  | _ => false

/-- One declared struct field: Go field name, `db` tag, `tgw` tag,
reflect kind, and current value (meaningful for unsigned-integer kinds). -/
structure GoField where
  name : String
  db : String
  tgw : String
  kind : GoKind
  val : Nat
deriving DecidableEq

/-- `tabMeta` from the source: primary field/column and the insert/update
column lists. -/
structure tabMeta where
  PrimaryName : String
  PrimaryDB : String
  InsertCols : List String
  UpdateCols : List String
deriving DecidableEq

/-- The three package-level validation errors. -/
inductive Err where
  | structConfig   -- ErrStructConfig
  | noPrimary      -- ErrNoPrimary
  | multiPrimary   -- ErrMultiPrimary
deriving DecidableEq

/-- `strings.Split(tag, ",")` on the character list: accumulate the current
chunk, emit it at every comma and at the end (`"" ↦ [""]`, like Go). -/
def splitCommaAux : List Char → List Char → List String
  | [], acc => [String.mk acc.reverse]
  | c :: cs, acc =>
    if c = ',' then String.mk acc.reverse :: splitCommaAux cs []
    else splitCommaAux cs (c :: acc)

/-- `strings.Split(s, ",")`. -/
def splitComma (s : String) : List String :=
  splitCommaAux s.data []

/-- `inArray(op, strings.Split(f.Tag.Get("tgw"), ","))`: the role list is the
comma-separated split of the `tgw` tag, membership is exact equality. -/
def hasOp (f : GoField) (op : String) : Bool :=
  (splitComma f.tgw).contains op

/-- The `db` tags of the `insert`-tagged fields, in declaration order. -/
def insCols (fs : List GoField) : List String :=
  (fs.filter fun f => hasOp f "insert").map GoField.db

/-- The `db` tags of the `update`-tagged fields, in declaration order. -/
def updCols (fs : List GoField) : List String :=
  (fs.filter fun f => hasOp f "update").map GoField.db

/-- The field loop of `parseMeta`: one iteration reads the `db` tag and the
role list, errors on a second primary, records the primary, and appends to
`InsertCols` / `UpdateCols`. -/
def parseLoop : List GoField → tabMeta → Except Err tabMeta
  | [], s => .ok s
  | f :: fs, s =>
    if hasOp f "primary" && !(s.PrimaryName == "") then
      .error .multiPrimary
    else
      let s1 := if hasOp f "primary" then
        { s with PrimaryName := f.name, PrimaryDB := f.db } else s
      let s2 := if hasOp f "insert" then
        { s1 with InsertCols := s1.InsertCols ++ [f.db] } else s1
      let s3 := if hasOp f "update" then
        { s2 with UpdateCols := s2.UpdateCols ++ [f.db] } else s2
      parseLoop fs s3

/-- `parseMeta`: scan the fields starting from the empty metadata, then fail
with `ErrNoPrimary` if the primary field name or column is empty, and with
`ErrStructConfig` if `InsertCols` is empty. -/
def parseMeta (fs : List GoField) : Except Err tabMeta :=
  match parseLoop fs ⟨"", "", [], []⟩ with
  | .error e => .error e
  | .ok s =>
    if s.PrimaryName == "" || s.PrimaryDB == "" then .error .noPrimary
    else if s.InsertCols.length == 0 then .error .structConfig
    else .ok s

/-- Modelled from the spec: the field loop of the metadata extractor under
tag scheme A (the insert/update-merged variant, absent from `src/tgw.go`,
whose roles are `primary` and `write`).  A non-primary `write`-tagged field
is a catch-all column appended to both the insert list and the update list;
primary detection is as in scheme B. -/
def parseLoopA : List GoField → tabMeta → Except Err tabMeta
  | [], s => .ok s
  | f :: fs, s =>
    if hasOp f "primary" && !(s.PrimaryName == "") then
      .error .multiPrimary
    else
      let s1 := if hasOp f "primary" then
        { s with PrimaryName := f.name, PrimaryDB := f.db } else s
      let s2 := if hasOp f "write" then
        { s1 with InsertCols := s1.InsertCols ++ [f.db],
                  UpdateCols := s1.UpdateCols ++ [f.db] } else s1
      parseLoopA fs s2

/-- Modelled from the spec: metadata extraction under tag scheme A, with the
same final validation as scheme B. -/
def parseMetaA (fs : List GoField) : Except Err tabMeta :=
  match parseLoopA fs ⟨"", "", [], []⟩ with
  | .error e => .error e
  | .ok s =>
    if s.PrimaryName == "" || s.PrimaryDB == "" then .error .noPrimary
    else if s.InsertCols.length == 0 then .error .structConfig
    else .ok s

/-- The `db` tags of the `write`-tagged fields, in declaration order. -/
def writeColsOf (fs : List GoField) : List String :=
  (fs.filter fun f => hasOp f "write").map GoField.db

/-- `quoteIdents`: backtick-quote each name. -/
def quoteIdents (names : List String) : List String :=
  names.map fun name => "`" ++ name ++ "`"

/-- `quoteNamedValues`: `:name` placeholder for each name. -/
def quoteNamedValues (names : List String) : List String :=
  names.map fun name => ":" ++ name

/-- `quoteUpdateSet`: `` `name` = :name`` for each name. -/
def quoteUpdateSet (names : List String) : List String :=
  names.map fun name => "`" ++ name ++ "` = :" ++ name

/-- `quoteSelectSet`: `` `name` = ?`` for each name. -/
def quoteSelectSet (names : List String) : List String :=
  names.map fun name => "`" ++ name ++ "` = ?"

/-- The INSERT statement built by `Create`. -/
def createSQL (table : String) (m : tabMeta) : String :=
  "INSERT INTO `" ++ table ++ "` (" ++
    String.intercalate "," (quoteIdents m.InsertCols) ++ ") VALUES (" ++
    String.intercalate "," (quoteNamedValues m.InsertCols) ++ ")"

/-- The SELECT statement built by `Read`. -/
def readSQL (table : String) (m : tabMeta) : String :=
  "SELECT * FROM `" ++ table ++ "` WHERE `" ++ m.PrimaryDB ++ "` = ?"

/-- The UPDATE statement built by `Update`. -/
def updateSQL (table : String) (m : tabMeta) : String :=
  "UPDATE `" ++ table ++ "` SET " ++
    String.intercalate "," (quoteUpdateSet m.UpdateCols) ++
    " WHERE `" ++ m.PrimaryDB ++ "` = :" ++ m.PrimaryDB

/-- The DELETE statement built by `Delete`. -/
def deleteSQL (table : String) (m : tabMeta) : String :=
  "DELETE FROM `" ++ table ++ "` WHERE `" ++ m.PrimaryDB ++ "` = ?"

/-- `Select`: the filter map and order map are modelled as association lists
(one fixed iteration order; the Go map iteration order is unspecified, which
only matters for maps with two or more entries).  Returns the SQL text and
the positionally bound arguments. -/
def selectBuild {α : Type} (table : String) (params : List (String × α))
    (orderby : List (String × String)) : String × List α :=
  let args := params.map Prod.snd
  let names := params.map Prod.fst
  let q0 := "SELECT * FROM `" ++ table ++ "`"
  let q1 := if names.length > 0 then
    q0 ++ " " ++ "WHERE " ++ String.intercalate " AND " (quoteSelectSet names)
    else q0
  let q2 := if orderby.length > 0 then
    q1 ++ " ORDER BY " ++
      String.intercalate "," (orderby.map fun kv => kv.1 ++ " " ++ kv.2)
    else q1
  (q2, args)

/-- `getPriVal`: `FieldByName(PrimaryName).Uint()`; `none` models the reflect
panic when the field is missing or not of an unsigned-integer kind. -/
def getPriVal (fs : List GoField) (m : tabMeta) : Option Nat :=
  match fs.find? (fun f => f.name == m.PrimaryName) with
  | none => none
  | some f => if isUintKind f.kind then some f.val else none

/-- The bit width `reflect.Value.SetUint` truncates to, per unsigned kind
(`uint` and `uintptr` are 64-bit on the modelled platform); irrelevant for
kinds on which `SetUint` panics. -/
def kindBits : GoKind → Nat
  | .uint8K => 8
  | .uint16K => 16
  | .uint32K => 32
  | _ => 64

/-- Overwrite the value of the first field with the given name, truncating
to the field's unsigned width as `reflect.Value.SetUint` does
(`uint8(x)`, `uint16(x)`, ... for narrow kinds). -/
def setField : List GoField → String → Nat → List GoField
  | [], _, _ => []
  | f :: fs, n, v =>
    if f.name == n then { f with val := v % 2 ^ kindBits f.kind } :: fs
    else f :: setField fs n v

/-- `FieldByName(PrimaryName).SetUint v`; `none` models the reflect panic
when the field is missing or not of an unsigned-integer kind. -/
def setPriVal (fs : List GoField) (m : tabMeta) (v : Nat) :
    Option (List GoField) :=
  match fs.find? (fun f => f.name == m.PrimaryName) with
  | none => none
  | some f =>
    if isUintKind f.kind then some (setField fs m.PrimaryName v) else none

/-- Outcome of a gateway operation: a validation error returned before any
SQL is issued, a reflect panic, or success. -/
inductive OpResult (α : Type) where
  | err (e : Err)
  | panicked
  | ok (a : α)
deriving DecidableEq

/-- The database, modelled as the list of SQL statements issued so far. -/
structure DB where
  log : List String
deriving DecidableEq

/-- `uint64(insertID)` for an `int64` last-insert id: two's-complement
conversion, i.e. reduction modulo `2^64`. -/
def uint64ofInt64 (i : Int) : Nat := (i % (2 : Int) ^ 64).toNat

/-- `Create`: parse metadata (returning its error unchanged, issuing no SQL),
build and execute the INSERT, then `SetUint` the primary field to the
driver-reported last-insert id.  `lastID` is the id the driver reports. -/
def createGo (fs : List GoField) (table : String) (lastID : Int) (db : DB) :
    OpResult (List GoField) × DB :=
  match parseMeta fs with
  | .error e => (.err e, db)
  | .ok m =>
    let q := createSQL table m
    let db1 : DB := ⟨db.log ++ [q]⟩
    match setPriVal fs m (uint64ofInt64 lastID) with
    | none => (.panicked, db1)
    | some fs1 => (.ok fs1, db1)

/-- `Read`: parse metadata, build the SELECT; `getPriVal` is evaluated as an
argument of `Get`, so a reflect panic occurs before the statement is
issued. -/
def readGo (fs : List GoField) (table : String) (db : DB) :
    OpResult String × DB :=
  match parseMeta fs with
  | .error e => (.err e, db)
  | .ok m =>
    let q := readSQL table m
    match getPriVal fs m with
    | none => (.panicked, db)
    | some _ => (.ok q, ⟨db.log ++ [q]⟩)

/-- `Update`: parse metadata, build and execute the UPDATE (named parameters,
no reflect access to the primary value). -/
def updateGo (fs : List GoField) (table : String) (db : DB) :
    OpResult String × DB :=
  match parseMeta fs with
  | .error e => (.err e, db)
  | .ok m =>
    let q := updateSQL table m
    (.ok q, ⟨db.log ++ [q]⟩)

/-- `Delete`: parse metadata, build the DELETE; `getPriVal` is evaluated as
an argument of `Exec`, so a reflect panic occurs before the statement is
issued. -/
def deleteGo (fs : List GoField) (table : String) (db : DB) :
    OpResult String × DB :=
  match parseMeta fs with
  | .error e => (.err e, db)
  | .ok m =>
    let q := deleteSQL table m
    match getPriVal fs m with
    | none => (.panicked, db)
    | some _ => (.ok q, ⟨db.log ++ [q]⟩)

end TGW

deriving instance DecidableEq for Except

namespace TGW

lemma insCols_cons (f : GoField) (fs : List GoField) :
    insCols (f :: fs) =
      (if hasOp f "insert" then [f.db] else []) ++ insCols fs := by
  by_cases h : hasOp f "insert" <;> simp [insCols, List.filter_cons, h]

lemma updCols_cons (f : GoField) (fs : List GoField) :
    updCols (f :: fs) =
      (if hasOp f "update" then [f.db] else []) ++ updCols fs := by
  by_cases h : hasOp f "update" <;> simp [updCols, List.filter_cons, h]

lemma writeColsOf_cons (f : GoField) (fs : List GoField) :
    writeColsOf (f :: fs) =
      (if hasOp f "write" then [f.db] else []) ++ writeColsOf fs := by
  by_cases h : hasOp f "write" <;> simp [writeColsOf, List.filter_cons, h]

/-- If no field of `fs` is tagged `primary`, the loop succeeds, leaves the
primary data of the accumulator unchanged and appends the tagged columns. -/
lemma parseLoop_noPrimary : ∀ (fs : List GoField) (s : tabMeta),
    (∀ f ∈ fs, hasOp f "primary" = false) →
    parseLoop fs s =
      .ok ⟨s.PrimaryName, s.PrimaryDB, s.InsertCols ++ insCols fs,
        s.UpdateCols ++ updCols fs⟩
  | [], s, _ => by simp [parseLoop, insCols, updCols]
  | f :: fs, s, h => by
    have hf : hasOp f "primary" = false := h f (List.mem_cons_self f fs)
    have hfs : ∀ g ∈ fs, hasOp g "primary" = false :=
      fun g hg => h g (List.mem_cons_of_mem f hg)
    cases hi : hasOp f "insert" <;> cases hu : hasOp f "update" <;>
      simp [parseLoop, hf, hi, hu, parseLoop_noPrimary fs _ hfs,
        insCols_cons, updCols_cons, List.append_assoc]

/-- If `p` is the unique `primary`-tagged field of `fs` and no primary has
been recorded yet, the loop succeeds with `p` as the primary. -/
lemma parseLoop_onePrimary : ∀ (fs : List GoField) (p : GoField),
    fs.filter (fun f => hasOp f "primary") = [p] →
    ∀ (pdb : String) (ic uc : List String),
    parseLoop fs ⟨"", pdb, ic, uc⟩ =
      .ok ⟨p.name, p.db, ic ++ insCols fs, uc ++ updCols fs⟩
  | [], p, hp => by simp [List.filter] at hp
  | f :: fs, p, hp => by
    intro pdb ic uc
    by_cases hf : hasOp f "primary"
    · simp only [List.filter_cons, hf, if_true] at hp
      obtain ⟨rfl, htl⟩ : f = p ∧ fs.filter (fun f => hasOp f "primary") = []
        := by simpa using hp
      have hfs : ∀ g ∈ fs, hasOp g "primary" = false := by
        simpa using List.filter_eq_nil_iff.mp htl
      cases hi : hasOp f "insert" <;> cases hu : hasOp f "update" <;>
        simp [parseLoop, hf, hi, hu, parseLoop_noPrimary fs _ hfs,
          insCols_cons, updCols_cons, List.append_assoc]
    · have hf' : hasOp f "primary" = false := by simpa using hf
      simp only [List.filter_cons, hf'] at hp
      rw [if_neg (by simp)] at hp
      cases hi : hasOp f "insert" <;> cases hu : hasOp f "update"
      · simpa [parseLoop, hf', hi, hu, insCols_cons, updCols_cons] using
          parseLoop_onePrimary fs p hp pdb ic uc
      · simpa [parseLoop, hf', hi, hu, insCols_cons, updCols_cons,
          List.append_assoc] using
          parseLoop_onePrimary fs p hp pdb ic (uc ++ [f.db])
      · simpa [parseLoop, hf', hi, hu, insCols_cons, updCols_cons,
          List.append_assoc] using
          parseLoop_onePrimary fs p hp pdb (ic ++ [f.db]) uc
      · simpa [parseLoop, hf', hi, hu, insCols_cons, updCols_cons,
          List.append_assoc] using
          parseLoop_onePrimary fs p hp pdb (ic ++ [f.db]) (uc ++ [f.db])

/-- If `fs` still holds two primaries to come (or one, when a primary was
already recorded) and field names are nonempty, the loop fails with
`ErrMultiPrimary`. -/
lemma parseLoop_multiPrimary : ∀ (fs : List GoField) (pn : String),
    (∀ f ∈ fs, f.name ≠ "") →
    (if pn = "" then 2 else 1) ≤
      (fs.filter fun f => hasOp f "primary").length →
    ∀ (pdb : String) (ic uc : List String),
    parseLoop fs ⟨pn, pdb, ic, uc⟩ = .error .multiPrimary
  | [], pn, _, hc => by
    simp only [List.filter_nil, List.length_nil] at hc
    split at hc <;> omega
  | f :: fs, pn, hn, hc => by
    intro pdb ic uc
    have hnf : f.name ≠ "" := hn f (List.mem_cons_self f fs)
    have hnfs : ∀ g ∈ fs, g.name ≠ "" :=
      fun g hg => hn g (List.mem_cons_of_mem f hg)
    by_cases hf : hasOp f "primary"
    · by_cases hs : pn = ""
      · subst hs
        simp only [List.filter_cons, hf, if_true, List.length_cons] at hc
        have hc2 : (if f.name = "" then 2 else 1) ≤
            (fs.filter fun f => hasOp f "primary").length := by
          rw [if_neg hnf]; omega
        cases hi : hasOp f "insert" <;> cases hu : hasOp f "update"
        · simpa [parseLoop, hf, hi, hu] using
            parseLoop_multiPrimary fs f.name hnfs hc2 f.db ic uc
        · simpa [parseLoop, hf, hi, hu] using
            parseLoop_multiPrimary fs f.name hnfs hc2 f.db ic (uc ++ [f.db])
        · simpa [parseLoop, hf, hi, hu] using
            parseLoop_multiPrimary fs f.name hnfs hc2 f.db (ic ++ [f.db]) uc
        · simpa [parseLoop, hf, hi, hu] using
            parseLoop_multiPrimary fs f.name hnfs hc2 f.db (ic ++ [f.db])
              (uc ++ [f.db])
      · have hscond : (pn == "") = false := by simp [hs]
        simp [parseLoop, hf, hscond]
    · have hf' : hasOp f "primary" = false := by simpa using hf
      simp only [List.filter_cons, hf', Bool.false_eq_true, if_false] at hc
      cases hi : hasOp f "insert" <;> cases hu : hasOp f "update"
      · simpa [parseLoop, hf', hi, hu] using
          parseLoop_multiPrimary fs pn hnfs hc pdb ic uc
      · simpa [parseLoop, hf', hi, hu] using
          parseLoop_multiPrimary fs pn hnfs hc pdb ic (uc ++ [f.db])
      · simpa [parseLoop, hf', hi, hu] using
          parseLoop_multiPrimary fs pn hnfs hc pdb (ic ++ [f.db]) uc
      · simpa [parseLoop, hf', hi, hu] using
          parseLoop_multiPrimary fs pn hnfs hc pdb (ic ++ [f.db]) (uc ++ [f.db])

/-- Any successful run of the scheme-A loop appends exactly the
`write`-tagged columns to both column lists. -/
lemma parseLoopA_ok_cols : ∀ (fs : List GoField) (s t : tabMeta),
    parseLoopA fs s = .ok t →
    t.InsertCols = s.InsertCols ++ writeColsOf fs ∧
    t.UpdateCols = s.UpdateCols ++ writeColsOf fs
  | [], s, t, h => by
    simp only [parseLoopA, Except.ok.injEq] at h
    simp [← h, writeColsOf]
  | f :: fs, s, t, h => by
    by_cases hc : (hasOp f "primary" && !(s.PrimaryName == "")) = true
    · simp [parseLoopA, hc] at h
    · have hc' : (hasOp f "primary" && !(s.PrimaryName == "")) = false := by
        simpa using hc
      by_cases hp : hasOp f "primary"
      · have hsP : (s.PrimaryName == "") = true := by
          simpa [hp] using hc'
        by_cases hw : hasOp f "write"
        · simp [parseLoopA, hp, hsP, hw] at h
          obtain ⟨h1, h2⟩ := parseLoopA_ok_cols fs _ t h
          simp [h1, h2, writeColsOf_cons, hw, List.append_assoc]
        · have hw' : hasOp f "write" = false := by simpa using hw
          simp [parseLoopA, hp, hsP, hw'] at h
          obtain ⟨h1, h2⟩ := parseLoopA_ok_cols fs _ t h
          simp [h1, h2, writeColsOf_cons, hw']
      · have hp' : hasOp f "primary" = false := by simpa using hp
        by_cases hw : hasOp f "write"
        · simp [parseLoopA, hp', hw] at h
          obtain ⟨h1, h2⟩ := parseLoopA_ok_cols fs _ t h
          simp [h1, h2, writeColsOf_cons, hw, List.append_assoc]
        · have hw' : hasOp f "write" = false := by simpa using hw
          simp [parseLoopA, hp', hw'] at h
          obtain ⟨h1, h2⟩ := parseLoopA_ok_cols fs _ t h
          simp [h1, h2, writeColsOf_cons, hw']

/-- Overwriting the value of the first field named `n` is reflected by
`find?`: the stored value is truncated to that field's width. -/
lemma find?_setField : ∀ (fs : List GoField) (n : String) (v : Nat)
    (p : GoField),
    fs.find? (fun f => f.name == n) = some p →
    (setField fs n v).find? (fun f => f.name == n) =
      some { p with val := v % 2 ^ kindBits p.kind }
  | [], _, _, _, h => by simp [List.find?] at h
  | f :: fs, n, v, p, h => by
    rw [List.find?_cons] at h
    by_cases hf : (f.name == n) = true
    · simp only [hf, if_true, Option.some.injEq] at h
      subst h
      simp [setField, hf, List.find?_cons]
    · have hf' : (f.name == n) = false := by simpa using hf
      simp only [hf', Bool.false_eq_true, if_false] at h
      simp only [setField, hf', Bool.false_eq_true, if_false]
      rw [List.find?_cons]
      simp only [hf', Bool.false_eq_true, if_false]
      exact find?_setField fs n v p h

/-- A struct with a unique primary field (nonempty Go name and nonempty
`db` column) and at least one `insert`-tagged field parses successfully,
and the column lists are the tagged columns in declaration order. -/
lemma parseMeta_onePrimary_ok (fs : List GoField) (p : GoField)
    (hp : fs.filter (fun f => hasOp f "primary") = [p])
    (hname : p.name ≠ "") (hdb : p.db ≠ "")
    (hins : ∃ f ∈ fs, hasOp f "insert" = true) :
    parseMeta fs = .ok ⟨p.name, p.db, insCols fs, updCols fs⟩ := by
  have h := parseLoop_onePrimary fs p hp "" [] []
  have hne : insCols fs ≠ [] := by
    obtain ⟨f, hf, hop⟩ := hins
    have hmem : f.db ∈ insCols fs := by
      simp only [insCols, List.mem_map]
      exact ⟨f, List.mem_filter.mpr ⟨hf, hop⟩, rfl⟩
    intro hnil
    rw [hnil] at hmem
    simp at hmem
  have hlen : ((insCols fs).length == 0) = false := by
    simpa [List.length_eq_zero] using hne
  simp [parseMeta, h, hname, hdb, hlen]

/-- C1 counterexample: a struct with exactly one `primary`-tagged field and
one writable field — but `update`-tagged only — makes `parseMeta` fail with
`ErrStructConfig` instead of succeeding, because the final validation only
checks `InsertCols`. -/
theorem parseMeta_writable_counterexample :
    (([⟨"ID", "id", "primary", .uint64K, 0⟩,
       ⟨"Name", "name", "update", .stringK, 0⟩] : List GoField).filter
        (fun f => hasOp f "primary")).length = 1 ∧
    (∃ f ∈ ([⟨"ID", "id", "primary", .uint64K, 0⟩,
       ⟨"Name", "name", "update", .stringK, 0⟩] : List GoField),
      hasOp f "insert" = true ∨ hasOp f "update" = true) ∧
    parseMeta [⟨"ID", "id", "primary", .uint64K, 0⟩,
       ⟨"Name", "name", "update", .stringK, 0⟩] = .error .structConfig := by
  decide

/-- C1 (amended): for every struct with exactly one `primary`-tagged field
(nonempty Go field name and nonempty `db` column name) and at least one
`insert`-tagged field, `parseMeta` succeeds and `InsertCols` (resp.
`UpdateCols`) are exactly the `db` column names of the `insert`- (resp.
`update`-) tagged fields, in declaration order. -/
theorem parseMeta_success_cols (fs : List GoField) (p : GoField)
    (hp : fs.filter (fun f => hasOp f "primary") = [p])
    (hname : p.name ≠ "") (hdb : p.db ≠ "")
    (hins : ∃ f ∈ fs, hasOp f "insert" = true) :
    parseMeta fs = .ok ⟨p.name, p.db, insCols fs, updCols fs⟩ :=
  parseMeta_onePrimary_ok fs p hp hname hdb hins

/-- Witness for C1: a concrete three-field struct. -/
theorem parseMeta_success_cols_witness :
    parseMeta [⟨"ID", "id", "primary", .uint64K, 0⟩,
      ⟨"Name", "name", "insert,update", .stringK, 0⟩,
      ⟨"Age", "age", "insert,update", .uint8K, 0⟩] =
      .ok ⟨"ID", "id", ["name", "age"], ["name", "age"]⟩ :=
  (parseMeta_success_cols
    [⟨"ID", "id", "primary", .uint64K, 0⟩,
      ⟨"Name", "name", "insert,update", .stringK, 0⟩,
      ⟨"Age", "age", "insert,update", .uint8K, 0⟩]
    ⟨"ID", "id", "primary", .uint64K, 0⟩
    (by decide) (by decide) (by decide) (by decide)).trans (by decide)

/-- C3: `Select` with the single filter `status = "active"` and the single
ordering `created_at desc` builds exactly the claimed SQL with the single
bound argument `"active"`; with no filters and no ordering it builds
exactly `SELECT * FROM `t``. -/
theorem select_sql_examples :
    selectBuild "t" [("status", "active")] [("created_at", "desc")] =
      ("SELECT * FROM `t` WHERE `status` = ? ORDER BY created_at desc",
        ["active"]) ∧
    selectBuild "t" ([] : List (String × String)) [] =
      ("SELECT * FROM `t`", []) := by
  decide

/-- C4: when metadata extraction fails, Create/Read/Update/Delete all
return that validation error and the list of issued SQL statements is
unchanged. -/
theorem validation_error_atomic (fs : List GoField) (t : String)
    (id : Int) (db : DB) (e : Err) (h : parseMeta fs = .error e) :
    createGo fs t id db = (.err e, db) ∧
    readGo fs t db = (.err e, db) ∧
    updateGo fs t db = (.err e, db) ∧
    deleteGo fs t db = (.err e, db) := by
  simp [createGo, readGo, updateGo, deleteGo, h]

/-- Witness for C4: a struct with no primary key. -/
theorem validation_error_atomic_witness :
    createGo [⟨"Name", "name", "insert", .stringK, 0⟩] "t" 1 ⟨[]⟩ =
      (.err .noPrimary, ⟨[]⟩) ∧
    readGo [⟨"Name", "name", "insert", .stringK, 0⟩] "t" ⟨[]⟩ =
      (.err .noPrimary, ⟨[]⟩) ∧
    updateGo [⟨"Name", "name", "insert", .stringK, 0⟩] "t" ⟨[]⟩ =
      (.err .noPrimary, ⟨[]⟩) ∧
    deleteGo [⟨"Name", "name", "insert", .stringK, 0⟩] "t" ⟨[]⟩ =
      (.err .noPrimary, ⟨[]⟩) :=
  validation_error_atomic [⟨"Name", "name", "insert", .stringK, 0⟩]
    "t" 1 ⟨[]⟩ .noPrimary (by decide)

/-- C5: a struct with a unique, well-named primary field and no
`insert`- or `update`-tagged field fails with `ErrStructConfig`. -/
theorem parseMeta_no_writable_structConfig (fs : List GoField)
    (p : GoField)
    (hp : fs.filter (fun f => hasOp f "primary") = [p])
    (hname : p.name ≠ "") (hdb : p.db ≠ "")
    (hw : ∀ f ∈ fs, hasOp f "insert" = false ∧ hasOp f "update" = false) :
    parseMeta fs = .error .structConfig := by
  have h := parseLoop_onePrimary fs p hp "" [] []
  have hfil : fs.filter (fun f => hasOp f "insert") = [] :=
    List.filter_eq_nil_iff.mpr (fun f hf => by simp [(hw f hf).1])
  have hi : insCols fs = [] := by simp [insCols, hfil]
  simp [parseMeta, h, hi, hname, hdb]

/-- Witness for C5: a struct holding only a primary field. -/
theorem parseMeta_no_writable_structConfig_witness :
    parseMeta [⟨"ID", "id", "primary", .uint64K, 0⟩] =
      .error .structConfig :=
  parseMeta_no_writable_structConfig
    [⟨"ID", "id", "primary", .uint64K, 0⟩]
    ⟨"ID", "id", "primary", .uint64K, 0⟩
    (by decide) (by decide) (by decide) (by decide)

/-- C6: a struct with zero `primary`-tagged fields fails with
`ErrNoPrimary`, and a struct (with nonempty Go field names) with two or
more `primary`-tagged fields fails with `ErrMultiPrimary`. -/
theorem parseMeta_primary_cardinality :
    (∀ fs : List GoField,
      fs.filter (fun f => hasOp f "primary") = [] →
      parseMeta fs = .error .noPrimary) ∧
    (∀ fs : List GoField, (∀ f ∈ fs, f.name ≠ "") →
      2 ≤ (fs.filter fun f => hasOp f "primary").length →
      parseMeta fs = .error .multiPrimary) := by
  constructor
  · intro fs h
    have hall : ∀ f ∈ fs, hasOp f "primary" = false := by
      simpa using List.filter_eq_nil_iff.mp h
    have hok := parseLoop_noPrimary fs ⟨"", "", [], []⟩ hall
    simp [parseMeta, hok]
  · intro fs hn h
    have herr := parseLoop_multiPrimary fs "" hn (by simpa using h) "" [] []
    simp [parseMeta, herr]

/-- Witness for C6: a primary-less struct and a two-primary struct. -/
theorem parseMeta_primary_cardinality_witness :
    parseMeta [⟨"Name", "name", "insert", .stringK, 0⟩] =
      .error .noPrimary ∧
    parseMeta [⟨"A", "a", "primary", .uint64K, 0⟩,
      ⟨"B", "b", "primary", .uint64K, 0⟩] = .error .multiPrimary :=
  ⟨parseMeta_primary_cardinality.1 _ (by decide),
   parseMeta_primary_cardinality.2 _ (by decide) (by decide)⟩

/-- C10: a struct whose unique `primary`-tagged field carries an empty
`db` column name fails with `ErrNoPrimary`, although a primary-tagged
field exists. -/
theorem parseMeta_empty_primary_db (fs : List GoField) (p : GoField)
    (hp : fs.filter (fun f => hasOp f "primary") = [p])
    (hdb : p.db = "") :
    parseMeta fs = .error .noPrimary := by
  have h := parseLoop_onePrimary fs p hp "" [] []
  simp [parseMeta, h, hdb]

/-- Witness for C10: a primary field with an empty `db` tag next to an
insertable column. -/
theorem parseMeta_empty_primary_db_witness :
    parseMeta [⟨"ID", "", "primary", .uint64K, 0⟩,
      ⟨"Name", "name", "insert", .stringK, 0⟩] = .error .noPrimary :=
  parseMeta_empty_primary_db
    [⟨"ID", "", "primary", .uint64K, 0⟩,
      ⟨"Name", "name", "insert", .stringK, 0⟩]
    ⟨"ID", "", "primary", .uint64K, 0⟩ (by decide) (by decide)

/-- C2 counterexample: a struct whose metadata has primary field name `ID`
and `InsertCols` `[name, age]`, but whose `ID` field is a `uint8`: with
driver-reported last-insert id 300, `SetUint` wraps and the field ends up
holding 44, not 300, although the operation succeeds. -/
theorem create_lastid_counterexample :
    parseMeta [⟨"ID", "id", "primary", .uint8K, 0⟩,
      ⟨"Name", "name", "insert", .stringK, 0⟩,
      ⟨"Age", "age", "insert", .uint8K, 0⟩] =
      .ok ⟨"ID", "id", ["name", "age"], []⟩ ∧
    createGo [⟨"ID", "id", "primary", .uint8K, 0⟩,
        ⟨"Name", "name", "insert", .stringK, 0⟩,
        ⟨"Age", "age", "insert", .uint8K, 0⟩] "t" 300 ⟨[]⟩ =
      (.ok [⟨"ID", "id", "primary", .uint8K, 44⟩,
          ⟨"Name", "name", "insert", .stringK, 0⟩,
          ⟨"Age", "age", "insert", .uint8K, 0⟩],
        ⟨["INSERT INTO `t` (`name`,`age`) VALUES (:name,:age)"]⟩) ∧
    getPriVal [⟨"ID", "id", "primary", .uint8K, 44⟩,
        ⟨"Name", "name", "insert", .stringK, 0⟩,
        ⟨"Age", "age", "insert", .uint8K, 0⟩]
      ⟨"ID", "id", ["name", "age"], []⟩ = some 44 ∧
    (44 : Nat) ≠ 300 := by
  decide

/-- C2 (amended): for a struct whose metadata has primary field name `ID`
and `InsertCols` `[name, age]`, `Create` builds exactly the claimed INSERT
statement; after the driver reports last-insert id `id` (a nonnegative
`int64` that fits the primary field's unsigned width — always the case for
a `uint64`/`uint`/`uintptr` primary), the struct's `ID` field holds
`id`. -/
theorem create_sql_and_last_insert_id (fs : List GoField) (m : tabMeta)
    (p : GoField) (id : Int) (db : DB)
    (hm : parseMeta fs = .ok m)
    (hpn : m.PrimaryName = "ID")
    (hic : m.InsertCols = ["name", "age"])
    (hfind : fs.find? (fun f => f.name == "ID") = some p)
    (hk : isUintKind p.kind = true)
    (h0 : 0 ≤ id) (h1 : id < 2 ^ 63)
    (hfit : id.toNat < 2 ^ kindBits p.kind) :
    createSQL "t" m = "INSERT INTO `t` (`name`,`age`) VALUES (:name,:age)" ∧
    createGo fs "t" id db =
      (.ok (setField fs "ID" id.toNat),
        ⟨db.log ++ ["INSERT INTO `t` (`name`,`age`) VALUES (:name,:age)"]⟩) ∧
    getPriVal (setField fs "ID" id.toNat) m = some id.toNat := by
  have hsql : createSQL "t" m =
      "INSERT INTO `t` (`name`,`age`) VALUES (:name,:age)" := by
    simp only [createSQL, hic]
    decide
  have hv : uint64ofInt64 id = id.toNat := by
    simp only [uint64ofInt64]
    rw [Int.emod_eq_of_lt h0 (h1.trans (by norm_num))]
  have hset : setPriVal fs m (uint64ofInt64 id) =
      some (setField fs "ID" id.toNat) := by
    simp [setPriVal, hpn, hfind, hk, hv]
  have hfind2 := find?_setField fs "ID" id.toNat p hfind
  have hget : getPriVal (setField fs "ID" id.toNat) m = some id.toNat := by
    simp [getPriVal, hpn, hfind2, hk, Nat.mod_eq_of_lt hfit]
  exact ⟨hsql, by simp [createGo, hm, hset, hsql], hget⟩

/-- Witness for C2: a concrete person struct, last-insert id 5. -/
theorem create_sql_and_last_insert_id_witness :
    createSQL "t" ⟨"ID", "id", ["name", "age"], []⟩ =
      "INSERT INTO `t` (`name`,`age`) VALUES (:name,:age)" ∧
    createGo [⟨"ID", "id", "primary", .uint64K, 0⟩,
        ⟨"Name", "name", "insert", .stringK, 0⟩,
        ⟨"Age", "age", "insert", .uint8K, 0⟩] "t" 5 ⟨[]⟩ =
      (.ok [⟨"ID", "id", "primary", .uint64K, 5⟩,
          ⟨"Name", "name", "insert", .stringK, 0⟩,
          ⟨"Age", "age", "insert", .uint8K, 0⟩],
        ⟨["INSERT INTO `t` (`name`,`age`) VALUES (:name,:age)"]⟩) ∧
    getPriVal (setField [⟨"ID", "id", "primary", .uint64K, 0⟩,
        ⟨"Name", "name", "insert", .stringK, 0⟩,
        ⟨"Age", "age", "insert", .uint8K, 0⟩] "ID" (5 : Int).toNat)
      ⟨"ID", "id", ["name", "age"], []⟩ = some 5 := by
  have h := create_sql_and_last_insert_id
    [⟨"ID", "id", "primary", .uint64K, 0⟩,
      ⟨"Name", "name", "insert", .stringK, 0⟩,
      ⟨"Age", "age", "insert", .uint8K, 0⟩]
    ⟨"ID", "id", ["name", "age"], []⟩
    ⟨"ID", "id", "primary", .uint64K, 0⟩ 5 ⟨[]⟩
    (by decide) rfl rfl (by decide) (by decide) (by decide) (by decide)
    (by decide)
  exact ⟨h.1, h.2.1.trans (by decide), h.2.2.trans (by decide)⟩

/-- C7 (spec-modelled tag scheme A): a non-primary field marked `write`
(and lacking `insert`) is a catch-all column present in both the insert
and the update column lists, and a non-primary field not marked `write`
(with a column name no write-tagged field shares) is in neither. -/
theorem schemeA_write_catchall (fs : List GoField) (m : tabMeta)
    (hm : parseMetaA fs = .ok m) :
    m.InsertCols = writeColsOf fs ∧ m.UpdateCols = writeColsOf fs ∧
    (∀ f ∈ fs, hasOp f "primary" = false → hasOp f "insert" = false →
      hasOp f "write" = true →
      f.db ∈ m.InsertCols ∧ f.db ∈ m.UpdateCols) ∧
    (∀ f ∈ fs, hasOp f "primary" = false → hasOp f "write" = false →
      (∀ g ∈ fs, hasOp g "write" = true → g.db ≠ f.db) →
      f.db ∉ m.InsertCols ∧ f.db ∉ m.UpdateCols) := by
  have hcols : m.InsertCols = writeColsOf fs ∧
      m.UpdateCols = writeColsOf fs := by
    cases h : parseLoopA fs ⟨"", "", [], []⟩ with
    | error e => simp [parseMetaA, h] at hm
    | ok s =>
      have hsm : s = m := by
        simp only [parseMetaA, h] at hm
        split_ifs at hm with h1 h2
        all_goals simp_all
      obtain ⟨h1, h2⟩ := parseLoopA_ok_cols fs _ s h
      rw [← hsm]
      simp only [h1, h2]
      simp
  refine ⟨hcols.1, hcols.2, ?_, ?_⟩
  · intro f hf _ _ hw
    have hmem : f.db ∈ writeColsOf fs := by
      simp only [writeColsOf, List.mem_map]
      exact ⟨f, List.mem_filter.mpr ⟨hf, hw⟩, rfl⟩
    exact ⟨by rw [hcols.1]; exact hmem, by rw [hcols.2]; exact hmem⟩
  · intro f hf _ hw hfresh
    have hmem : f.db ∉ writeColsOf fs := by
      intro hmem
      simp only [writeColsOf, List.mem_map] at hmem
      obtain ⟨g, hg, hgdb⟩ := hmem
      have hg2 := List.mem_filter.mp hg
      exact hfresh g hg2.1 hg2.2 hgdb
    exact ⟨by rw [hcols.1]; exact hmem, by rw [hcols.2]; exact hmem⟩

/-- Witness for C7: a scheme-A struct with a write column and an
untagged column. -/
theorem schemeA_write_catchall_witness :
    (tabMeta.mk "ID" "id" ["name"] ["name"]).InsertCols =
      writeColsOf [⟨"ID", "id", "primary", .uint64K, 0⟩,
        ⟨"Name", "name", "write", .stringK, 0⟩,
        ⟨"Memo", "memo", "", .stringK, 0⟩] :=
  (schemeA_write_catchall
    [⟨"ID", "id", "primary", .uint64K, 0⟩,
      ⟨"Name", "name", "write", .stringK, 0⟩,
      ⟨"Memo", "memo", "", .stringK, 0⟩]
    ⟨"ID", "id", ["name"], ["name"]⟩ (by decide)).1

/-- C8: on a struct whose primary field is not of an unsigned-integer
kind (but whose metadata parses), Create, Read and Delete end in a
reflect panic, not in a returned error. -/
theorem nonuint_primary_panics (fs : List GoField) (m : tabMeta)
    (p : GoField) (t : String) (id : Int) (db : DB)
    (hm : parseMeta fs = .ok m)
    (hfind : fs.find? (fun f => f.name == m.PrimaryName) = some p)
    (hk : isUintKind p.kind = false) :
    (createGo fs t id db).1 = .panicked ∧
    (readGo fs t db).1 = .panicked ∧
    (deleteGo fs t db).1 = .panicked := by
  have hget : getPriVal fs m = none := by simp [getPriVal, hfind, hk]
  have hset : setPriVal fs m (uint64ofInt64 id) = none := by
    simp [setPriVal, hfind, hk]
  exact ⟨by simp [createGo, hm, hset], by simp [readGo, hm, hget],
    by simp [deleteGo, hm, hget]⟩

/-- Witness for C8: a struct whose primary field is a string. -/
theorem nonuint_primary_panics_witness :
    (createGo [⟨"ID", "id", "primary", .stringK, 0⟩,
      ⟨"Name", "name", "insert", .stringK, 0⟩] "t" 1 ⟨[]⟩).1 =
      .panicked ∧
    (readGo [⟨"ID", "id", "primary", .stringK, 0⟩,
      ⟨"Name", "name", "insert", .stringK, 0⟩] "t" ⟨[]⟩).1 = .panicked ∧
    (deleteGo [⟨"ID", "id", "primary", .stringK, 0⟩,
      ⟨"Name", "name", "insert", .stringK, 0⟩] "t" ⟨[]⟩).1 = .panicked :=
  nonuint_primary_panics
    [⟨"ID", "id", "primary", .stringK, 0⟩,
      ⟨"Name", "name", "insert", .stringK, 0⟩]
    ⟨"ID", "id", ["name"], []⟩ ⟨"ID", "id", "primary", .stringK, 0⟩
    "t" 1 ⟨[]⟩ (by decide) (by decide) (by decide)

/-- C9: a struct with one well-named primary field and at least one
`insert`-tagged but no `update`-tagged field parses successfully with an
empty `UpdateCols`, and `Update` raises no local validation error,
building `UPDATE `t` SET  WHERE `pk` = :pk` with an empty SET list. -/
theorem update_empty_set (fs : List GoField) (p : GoField) (t : String)
    (db : DB)
    (hp : fs.filter (fun f => hasOp f "primary") = [p])
    (hname : p.name ≠ "") (hdb : p.db ≠ "")
    (hins : ∃ f ∈ fs, hasOp f "insert" = true)
    (hupd : ∀ f ∈ fs, hasOp f "update" = false) :
    parseMeta fs = .ok ⟨p.name, p.db, insCols fs, []⟩ ∧
    updateGo fs t db =
      (.ok ("UPDATE `" ++ t ++ "` SET  WHERE `" ++ p.db ++ "` = :" ++ p.db),
        ⟨db.log ++
          ["UPDATE `" ++ t ++ "` SET  WHERE `" ++ p.db ++ "` = :" ++
            p.db]⟩) := by
  have hu : updCols fs = [] := by
    have hfil : fs.filter (fun f => hasOp f "update") = [] :=
      List.filter_eq_nil_iff.mpr (fun f hf => by simp [hupd f hf])
    simp [updCols, hfil]
  have hm : parseMeta fs = .ok ⟨p.name, p.db, insCols fs, []⟩ := by
    have h2 := parseMeta_onePrimary_ok fs p hp hname hdb hins
    rw [hu] at h2
    exact h2
  have key : ∀ R : List Char,
      ("` SET " : String).data ++ ((" WHERE `" : String).data ++ R) =
      ("` SET  WHERE `" : String).data ++ R := by
    intro R
    rw [← List.append_assoc]
    rfl
  have hsql : updateSQL t ⟨p.name, p.db, insCols fs, []⟩ =
      "UPDATE `" ++ t ++ "` SET  WHERE `" ++ p.db ++ "` = :" ++ p.db := by
    apply String.ext
    simp only [updateSQL, quoteUpdateSet, List.map_nil, String.intercalate,
      String.append_empty, String.data_append, List.append_assoc]
    rw [key]
  exact ⟨hm, by simp [updateGo, hm, hsql]⟩

/-- Witness for C9: a struct with an insert-only column. -/
theorem update_empty_set_witness :
    parseMeta [⟨"ID", "id", "primary", .uint64K, 0⟩,
      ⟨"Name", "name", "insert", .stringK, 0⟩] =
      .ok ⟨"ID", "id", ["name"], []⟩ ∧
    updateGo [⟨"ID", "id", "primary", .uint64K, 0⟩,
      ⟨"Name", "name", "insert", .stringK, 0⟩] "t" ⟨[]⟩ =
      (.ok "UPDATE `t` SET  WHERE `id` = :id",
        ⟨["UPDATE `t` SET  WHERE `id` = :id"]⟩) := by
  have h := update_empty_set
    [⟨"ID", "id", "primary", .uint64K, 0⟩,
      ⟨"Name", "name", "insert", .stringK, 0⟩]
    ⟨"ID", "id", "primary", .uint64K, 0⟩ "t" ⟨[]⟩
    (by decide) (by decide) (by decide) (by decide) (by decide)
  exact ⟨h.1.trans (by decide), h.2.trans (by decide)⟩

end TGW
